import Mathlib

/-!
Verification of the Anthem A/V receiver protocol client
(`uc_intg_anthemav/client.py`): a shallow embedding of the response
parser (`_update_state_from_response`), the state cache, the response
dispatch (`_process_response`), the connect retry loop (`connect`), the
disconnect path (`disconnect`), the command encoder (`set_volume`) and
the cached getters (`get_input_names`, `get_input_name`), together with
theorems settling the specification claims about them.
-/

namespace AnthemAV

/-! ## String primitives

Python string operations used by the client, modelled over `List Char`:
`startswith`, slicing, `strip`, substring containment, and the regex
idioms `re.match` and `re.search` for the specific patterns the parser
uses.
-/

/-- The double-quote character, written via its code point. -/
def quoteChar : Char := Char.ofNat 34

/-- Python `str.startswith`: the char list `pre` is a leading segment of `s`. -/
def strStarts (s : String) (pre : List Char) : Bool := List.isPrefixOf pre s.data

/-- Python slicing `s[n:]`. -/
def strDrop (s : String) (n : Nat) : String := String.mk (s.data.drop n)

/-- Python whitespace as used by `str.strip`. -/
def isPySpace (c : Char) : Bool :=
  c = ' ' || c = '\t' || c = '\n' || c = '\r' || c = Char.ofNat 11 || c = Char.ofNat 12

/-- Python `str.strip`: remove leading and trailing whitespace. -/
def pyStrip (s : String) : String :=
  String.mk (((s.data.dropWhile isPySpace).reverse.dropWhile isPySpace).reverse)

/-- Python `pat in s` substring containment, over char lists. -/
def hasInfix (l pat : List Char) : Bool :=
  match l with
  | [] => List.isPrefixOf pat []
  | _ :: rest => List.isPrefixOf pat l || hasInfix rest pat

/-- Decimal digits to the number they denote (Python `int` on a digit string). -/
def digitsToNat (ds : List Char) : Nat := ds.foldl (fun a c => a * 10 + (c.toNat - 48)) 0

/-- Regex `\d+` anchored at the head of `l`: the maximal leading digit run,
failing when it is empty. -/
def parseNatAt (l : List Char) : Option Nat :=
  let ds := l.takeWhile Char.isDigit
  if ds.isEmpty then none else some (digitsToNat ds)

/-- Regex `-?\d+` anchored at the head of `l`. -/
def parseSignedAt (l : List Char) : Option Int :=
  match l with
  | c :: rest =>
    if c = '-' then (parseNatAt rest).map (fun n => -(n : Int))
    else (parseNatAt l).map (fun n => (n : Int))
  | [] => none

/-- Model of `re.search(r'VOL(-?\d+)')`: leftmost position where `VOL` is followed by a
signed integer; the captured integer. -/
def searchVOL : List Char → Option Int
  | [] => none
  | c :: rest =>
    if c = 'V' && List.isPrefixOf ['O', 'L'] rest then
      match parseSignedAt (rest.drop 2) with
      | some v => some v
      | none => searchVOL rest
    else searchVOL rest

/-- Model of `re.search(r'INP(\d+)')`: leftmost position where `INP` is followed by an
unsigned integer; the captured integer. -/
def searchINP : List Char → Option Nat
  | [] => none
  | c :: rest =>
    if c = 'I' && List.isPrefixOf ['N', 'P'] rest then
      match parseNatAt (rest.drop 2) with
      | some v => some v
      | none => searchINP rest
    else searchINP rest

/-- The chars before the first double quote of `l`, failing if `l` has none. -/
def takeToQuote : List Char → Option (List Char)
  | [] => none
  | c :: rest => if c = quoteChar then some [] else (takeToQuote rest).map (fun l => c :: l)

/-- Model of `re.search` for a three-letter keyword followed by a double-quoted run of
non-quote characters (patterns `SIP"([^"]*)"` and `AIC"([^"]*)"`); the capture. -/
def searchQuoted (k1 k2 k3 : Char) : List Char → Option String
  | [] => none
  | c :: rest =>
    if c = k1 && List.isPrefixOf [k2, k3, quoteChar] rest then
      match takeToQuote (rest.drop 3) with
      | some nm => some (String.mk nm)
      | none => searchQuoted k1 k2 k3 rest
    else searchQuoted k1 k2 k3 rest

/-- Model of `re.match(r'ISN(\d+)"([^"]*)"')` on the whole line: anchored `ISN`, digits,
then a double-quoted run of non-quote characters; captures index and name. -/
def parseISN (s : String) : Option (Nat × String) :=
  match s.data with
  | c1 :: c2 :: c3 :: rest =>
    if c1 = 'I' && c2 = 'S' && c3 = 'N' then
      let ds := rest.takeWhile Char.isDigit
      if ds.isEmpty then none
      else
        match rest.dropWhile Char.isDigit with
        | q :: rest2 =>
          if q = quoteChar then
            match takeToQuote rest2 with
            | some nm => some (digitsToNat ds, String.mk nm)
            | none => none
          else none
        | [] => none
    else none
  | _ => none

/-- Model of `re.match(r'Z(\d+)')`: anchored `Z` followed by at least one digit; the
zone number. -/
def zonePrefix (s : String) : Option Nat :=
  match s.data with
  | c :: rest =>
    if c = 'Z' then
      let ds := rest.takeWhile Char.isDigit
      if ds.isEmpty then none else some (digitsToNat ds)
    else none
  | [] => none

/-! ## The state cache

`self._state_cache` is a string-keyed dict whose keys are exactly the ones the
parser writes: the four global identity scalars, the `input_names` dict, and
one `zone_<n>` dict per zone. Absence of a key is modelled by `none` (for the
scalars and `input_names`) or by absence from the zone association list.
-/

/-- One `zone_<n>` record of the cache; every field starts absent. -/
structure ZoneState where
  power : Option Bool := none
  volume : Option Int := none
  muted : Option Bool := none
  input : Option Nat := none
  input_name : Option String := none
  audio_format : Option String := none
deriving Repr, DecidableEq

/-- The whole `_state_cache`. `input_names = none` models the key being absent
from the dict; `some m` models it present with value `m`. -/
structure StateCache where
  model : Option String := none
  device_name : Option String := none
  region : Option String := none
  software_version : Option String := none
  input_names : Option (List (Nat × String)) := none
  zones : List (Nat × ZoneState) := []
deriving Repr, DecidableEq

/-- The cache of a freshly constructed client. -/
def emptyCache : StateCache := {}

/-- Lookup in a Python-dict-like association list. -/
def alookup {α : Type} : List (Nat × α) → Nat → Option α
  | [], _ => none
  | (k, v) :: rest, n => if k = n then some v else alookup rest n

/-- Python dict assignment `d[n] = v`: update in place, or append when new. -/
def aupsert {α : Type} : List (Nat × α) → Nat → α → List (Nat × α)
  | [], n, v => [(n, v)]
  | (k, w) :: rest, n, v => if k = n then (k, v) :: rest else (k, w) :: aupsert rest n v

/-- The `if zone_key not in self._state_cache: self._state_cache[zone_key] = {}`
step: insert an empty record for zone `n` when absent. -/
def ensureZone (zs : List (Nat × ZoneState)) (n : Nat) : List (Nat × ZoneState) :=
  match alookup zs n with
  | some _ => zs
  | none => zs ++ [(n, {})]

/-- Field assignment on the (ensured) record of zone `n`. -/
def zoneSet (zs : List (Nat × ZoneState)) (n : Nat) (f : ZoneState → ZoneState) :
    List (Nat × ZoneState) :=
  aupsert zs n (f ((alookup zs n).getD {}))

/-! ## The response parser -/

/-- The field write a `Z`-line carries, as a closed tag. -/
inductive ZoneAction where
  | setPower (b : Bool)
  | setVolume (v : Int)
  | setMuted (b : Bool)
  | setInput (i : Nat)
  | setInputName (nm : String)
  | setAudioFormat (t : String)
  | noField
deriving Repr, DecidableEq

/-- The keyword chain of the `Z` branch of `_update_state_from_response`:
`"POW" in response` / `"VOL" in response` / ... in that order, each with its
extraction; a keyword whose extraction fails, or no keyword at all, writes no
field. Note the code computes the POW and MUT booleans as
`"1" in response`, a containment test over the whole line. -/
def zoneActionOf (s : String) : ZoneAction :=
  if hasInfix s.data ['P', 'O', 'W'] then ZoneAction.setPower (s.data.contains '1')
  else if hasInfix s.data ['V', 'O', 'L'] then
    match searchVOL s.data with
    | some v => ZoneAction.setVolume v
    | none => ZoneAction.noField
  else if hasInfix s.data ['M', 'U', 'T'] then ZoneAction.setMuted (s.data.contains '1')
  else if hasInfix s.data ['I', 'N', 'P'] then
    match searchINP s.data with
    | some i => ZoneAction.setInput i
    | none => ZoneAction.noField
  else if hasInfix s.data ['S', 'I', 'P'] then
    match searchQuoted 'S' 'I' 'P' s.data with
    | some nm => ZoneAction.setInputName nm
    | none => ZoneAction.noField
  else if hasInfix s.data ['A', 'I', 'C'] then
    match searchQuoted 'A' 'I' 'C' s.data with
    | some t => ZoneAction.setAudioFormat t
    | none => ZoneAction.noField
  else ZoneAction.noField

/-- Apply one tagged field write to the zone list. -/
def applyZoneAction (zs : List (Nat × ZoneState)) (n : Nat) :
    ZoneAction → List (Nat × ZoneState)
  | ZoneAction.setPower b => zoneSet zs n (fun z => { z with power := some b })
  | ZoneAction.setVolume v => zoneSet zs n (fun z => { z with volume := some v })
  | ZoneAction.setMuted b => zoneSet zs n (fun z => { z with muted := some b })
  | ZoneAction.setInput i => zoneSet zs n (fun z => { z with input := some i })
  | ZoneAction.setInputName nm => zoneSet zs n (fun z => { z with input_name := some nm })
  | ZoneAction.setAudioFormat t => zoneSet zs n (fun z => { z with audio_format := some t })
  | ZoneAction.noField => zs

/-- The whole `Z` branch: ensure the zone record exists, then apply the
keyword's field write. -/
def zoneApply (zs : List (Nat × ZoneState)) (s : String) (n : Nat) :
    List (Nat × ZoneState) :=
  applyZoneAction (ensureZone zs n) n (zoneActionOf s)

/-- The `ISN` branch: store the stripped name, falling back to `Input <n>`
when it strips to empty, creating the `input_names` dict when absent. -/
def applyISN (c : StateCache) (n : Nat) (name : String) : StateCache :=
  let trimmed := pyStrip name
  let stored := if trimmed = "" then "Input " ++ toString n else trimmed
  { c with input_names := some (aupsert (c.input_names.getD []) n stored) }

/-- Model of `_update_state_from_response`: dispatch a trimmed line by prefix and
mutate the cache accordingly. -/
def updateCache (c : StateCache) (s : String) : StateCache :=
  if strStarts s ['I', 'D', 'M'] then { c with model := some (pyStrip (strDrop s 3)) }
  else if strStarts s ['I', 'D', 'N'] then { c with device_name := some (pyStrip (strDrop s 3)) }
  else if strStarts s ['I', 'D', 'R'] then { c with region := some (pyStrip (strDrop s 3)) }
  else if strStarts s ['I', 'D', 'S'] then
    { c with software_version := some (pyStrip (strDrop s 3)) }
  else if strStarts s ['I', 'S', 'N'] then
    match parseISN s with
    | some (n, name) => applyISN c n name
    | none => c
  else if strStarts s ['Z'] then
    match zonePrefix s with
    | some n => { c with zones := zoneApply c.zones s n }
    | none => c
  else c

/-- The branch `_update_state_from_response` takes on a line, as a closed tag
(the tagged parse result of the design notes). -/
inductive LineClass where
  | idm
  | idn
  | idr
  | ids
  | isn (n : Nat) (name : String)
  | zone (n : Nat)
  | other
deriving Repr, DecidableEq

/-- The dispatch chain of `_update_state_from_response`, separated from its
effect. -/
def classifyLine (s : String) : LineClass :=
  if strStarts s ['I', 'D', 'M'] then LineClass.idm
  else if strStarts s ['I', 'D', 'N'] then LineClass.idn
  else if strStarts s ['I', 'D', 'R'] then LineClass.idr
  else if strStarts s ['I', 'D', 'S'] then LineClass.ids
  else if strStarts s ['I', 'S', 'N'] then
    match parseISN s with
    | some (n, name) => LineClass.isn n name
    | none => LineClass.other
  else if strStarts s ['Z'] then
    match zonePrefix s with
    | some n => LineClass.zone n
    | none => LineClass.other
  else LineClass.other

/-- The effect of each branch of `_update_state_from_response`. -/
def applyClass (c : StateCache) (s : String) : LineClass → StateCache
  | LineClass.idm => { c with model := some (pyStrip (strDrop s 3)) }
  | LineClass.idn => { c with device_name := some (pyStrip (strDrop s 3)) }
  | LineClass.idr => { c with region := some (pyStrip (strDrop s 3)) }
  | LineClass.ids => { c with software_version := some (pyStrip (strDrop s 3)) }
  | LineClass.isn n name => applyISN c n name
  | LineClass.zone n => { c with zones := zoneApply c.zones s n }
  | LineClass.other => c

/-- Every volume held in a per-zone record lies in the dB range [-90, 0]. -/
def volumesInRange (c : StateCache) : Prop :=
  ∀ n z, alookup c.zones n = some z → ∀ v, z.volume = some v → -90 ≤ v ∧ v ≤ 0

/-- The `_pending_input_queries` update of the `ISN` branch: a parsed input
index is discarded from the pending set. -/
def updatePending (pending : List Nat) (s : String) : List Nat :=
  match parseISN s with
  | some (n, _) => pending.erase n
  | none => pending

/-- Model of `_process_response`: update the cache from the line, then, when a callback
is registered, invoke it with the original raw line (modelled by appending the
line to an invocation log). Callback exceptions are swallowed, so invocation
never alters the cache path. -/
def processResponse (c : StateCache) (hasCallback : Bool) (log : List String)
    (s : String) : StateCache × List String :=
  let c2 := updateCache c s
  if hasCallback then (c2, log ++ [s]) else (c2, log)

/-- Fold the parser over a sequence of received lines. -/
def runLines (c : StateCache) (ls : List String) : StateCache := ls.foldl updateCache c

/-! ## Cache-mutating operations beyond the parser -/

/-- The operations that can touch the client between observations: processing
one notification line, the discovery handshake's cache initialization
(`_discover_input_names` lines 145 to 146), and issuing an outbound command
(`_send_command`, which only writes to the socket). -/
inductive Op where
  | line (s : String)
  | discoverInit
  | cmd (c : String)
deriving Repr, DecidableEq

/-- Effect of one operation on the state cache. -/
def stepOp (c : StateCache) : Op → StateCache
  | Op.line s => updateCache c s
  | Op.discoverInit =>
    if c.input_names.isSome then c else { c with input_names := some [] }
  | Op.cmd _ => c

/-- Run a sequence of operations. -/
def runOps (c : StateCache) (ops : List Op) : StateCache := ops.foldl stepOp c

/-- The keys the cache can hold. -/
inductive CacheKey where
  | model
  | device_name
  | region
  | software_version
  | input_names
  | zone (n : Nat)
deriving Repr, DecidableEq

/-- Whether a key is present in the cache dict. -/
def keyPresent (c : StateCache) : CacheKey → Bool
  | CacheKey.model => c.model.isSome
  | CacheKey.device_name => c.device_name.isSome
  | CacheKey.region => c.region.isSome
  | CacheKey.software_version => c.software_version.isSome
  | CacheKey.input_names => c.input_names.isSome
  | CacheKey.zone n => (alookup c.zones n).isSome

/-- Whether an operation can introduce key `k`: a command never, the discovery
initialization only `input_names`, and a line exactly the keys it creates in
an empty cache (the branch a line takes does not depend on the cache). -/
def introduces : Op → CacheKey → Bool
  | Op.cmd _, _ => false
  | Op.discoverInit, CacheKey.input_names => true
  | Op.discoverInit, _ => false
  | Op.line s, k => keyPresent (updateCache emptyCache s) k

/-! ## Recognized lines, command encoder, getters, connection lifecycle -/

/-- The recognized protocol patterns: the identity prefixes, a parsed `ISN`
name response, or a `Z<n>` line carrying one of the six zone keywords. -/
def recognizedLine (s : String) : Bool :=
  strStarts s ['I', 'D', 'M'] || strStarts s ['I', 'D', 'N'] ||
  strStarts s ['I', 'D', 'R'] || strStarts s ['I', 'D', 'S'] ||
  (parseISN s).isSome ||
  ((zonePrefix s).isSome &&
    (hasInfix s.data ['P', 'O', 'W'] || hasInfix s.data ['V', 'O', 'L'] ||
     hasInfix s.data ['M', 'U', 'T'] || hasInfix s.data ['I', 'N', 'P'] ||
     hasInfix s.data ['S', 'I', 'P'] || hasInfix s.data ['A', 'I', 'C']))

/-- The clamp in `set_volume`: `max(-90, min(0, volume))`. -/
def clampVolume (v : Int) : Int := max (-90) (min 0 v)

/-- The command string `set_volume` encodes: `Z{zone}VOL{clamped volume}`. -/
def setVolumeCmd (zone : Nat) (v : Int) : String :=
  "Z" ++ toString zone ++ "VOL" ++ toString (clampVolume v)

/-- Model of `get_input_names`: the `input_names` dict, or empty when absent. -/
def getInputNames (c : StateCache) : List (Nat × String) := c.input_names.getD []

/-- Model of `get_input_name`: lookup with fallback `Input <n>`. -/
def getInputName (c : StateCache) (n : Nat) : String :=
  (alookup (getInputNames c) n).getD ("Input " ++ toString n)

/-- Connection-lifecycle fields of the client relevant to `disconnect`:
the connected flag and presence of the reader, writer, and listen task. -/
structure ConnState where
  connected : Bool
  reader : Bool
  writer : Bool
  listenTask : Bool
deriving Repr, DecidableEq

/-- The fully cleared connection state left behind by a disconnect. -/
def disconnectedState : ConnState :=
  { connected := false, reader := false, writer := false, listenTask := false }

/-- Model of `disconnect`: early return when not connected; otherwise cancel the listen
task, close the writer, and clear all connection state. -/
def disconnect (st : ConnState) : ConnState :=
  if st.connected = false then st else disconnectedState

/-- The outcome of one `asyncio.open_connection` attempt. -/
inductive AttemptResult where
  | success
  | timeout
  | oserr (errno : Nat)
  | otherExc
deriving Repr, DecidableEq

/-- The errnos `connect` treats as transient network errors: 113, 111, 10061. -/
def transientErrno (e : Nat) : Bool := e = 113 || e = 111 || e = 10061

/-- The retry loop of `connect`: `attempt` is the 1-based attempt number,
`remaining` the number of loop iterations still available
(`max_retries - attempt + 1`); the result pairs the returned boolean with the
number of attempts actually made. A timeout or an other (non-OSError)
exception retries while attempts remain; an OSError retries only when its
errno is transient, and otherwise returns failure at once. -/
def connectGo (f : Nat → AttemptResult) : Nat → Nat → Bool × Nat
  | _, 0 => (false, 0)
  | attempt, r + 1 =>
    match f attempt with
    | AttemptResult.success => (true, 1)
    | AttemptResult.timeout =>
      if 0 < r then
        let p := connectGo f (attempt + 1) r
        (p.1, p.2 + 1)
      else (false, 1)
    | AttemptResult.oserr e =>
      if transientErrno e then
        if 0 < r then
          let p := connectGo f (attempt + 1) r
          (p.1, p.2 + 1)
        else (false, 1)
      else (false, 1)
    | AttemptResult.otherExc =>
      if 0 < r then
        let p := connectGo f (attempt + 1) r
        (p.1, p.2 + 1)
      else (false, 1)

/-- Model of `connect(max_retries)` given the outcome of each attempt: run the loop
from attempt 1 with the full budget. -/
def connectRun (f : Nat → AttemptResult) (maxRetries : Nat) : Bool × Nat :=
  connectGo f 1 maxRetries

/-! ## Association-list lemmas -/

theorem alookup_aupsert_self {α : Type} (l : List (Nat × α)) (n : Nat) (v : α) :
    alookup (aupsert l n v) n = some v := by
  induction l with
  | nil => simp [aupsert, alookup]
  | cons p rest ih =>
    obtain ⟨k, w⟩ := p
    by_cases hk : k = n
    · simp [aupsert, alookup, hk]
    · simp [aupsert, alookup, hk, ih]

theorem alookup_aupsert_ne {α : Type} (l : List (Nat × α)) (n m : Nat) (v : α)
    (h : m ≠ n) : alookup (aupsert l n v) m = alookup l m := by
  induction l with
  | nil =>
    have hnm : ¬n = m := by omega
    simp [aupsert, alookup, hnm]
  | cons p rest ih =>
    obtain ⟨k, w⟩ := p
    simp only [aupsert]
    by_cases hk : k = n
    · have hkm : ¬k = m := by omega
      simp [if_pos hk, alookup, hkm]
    · simp [if_neg hk, alookup, ih]

theorem alookup_append {α : Type} (l1 l2 : List (Nat × α)) (m : Nat) :
    alookup (l1 ++ l2) m =
      match alookup l1 m with
      | some v => some v
      | none => alookup l2 m := by
  induction l1 with
  | nil => simp [alookup]
  | cons p rest ih =>
    obtain ⟨k, w⟩ := p
    by_cases hk : k = m <;> simp [alookup, hk, ih]

theorem alookup_ensureZone_self_isSome (zs : List (Nat × ZoneState)) (n : Nat) :
    (alookup (ensureZone zs n) n).isSome = true := by
  unfold ensureZone
  cases h : alookup zs n with
  | some z => simp [h]
  | none => simp [alookup_append, h, alookup]

theorem alookup_ensureZone_ne (zs : List (Nat × ZoneState)) (n m : Nat)
    (h : m ≠ n) : alookup (ensureZone zs n) m = alookup zs m := by
  unfold ensureZone
  cases hz : alookup zs n with
  | some z => rfl
  | none =>
    rw [alookup_append]
    cases hm : alookup zs m with
    | some z => rfl
    | none =>
      have hnm : ¬n = m := by omega
      simp [alookup, hnm]

theorem alookup_ensureZone_cases (zs : List (Nat × ZoneState)) (n m : Nat)
    (z : ZoneState) (h : alookup (ensureZone zs n) m = some z) :
    alookup zs m = some z ∨ z = {} := by
  unfold ensureZone at h
  cases hz : alookup zs n with
  | some w => rw [hz] at h; exact Or.inl h
  | none =>
    rw [hz, alookup_append] at h
    cases hm : alookup zs m with
    | some w => rw [hm] at h; exact Or.inl h
    | none =>
      rw [hm] at h
      by_cases hnm : n = m
      · simp [alookup, hnm] at h
        exact Or.inr h.symm
      · simp [alookup, hnm] at h

theorem alookup_zoneSet_self (zs : List (Nat × ZoneState)) (n : Nat)
    (f : ZoneState → ZoneState) :
    alookup (zoneSet zs n f) n = some (f ((alookup zs n).getD {})) :=
  alookup_aupsert_self zs n _

theorem alookup_zoneSet_ne (zs : List (Nat × ZoneState)) (n m : Nat)
    (f : ZoneState → ZoneState) (h : m ≠ n) :
    alookup (zoneSet zs n f) m = alookup zs m :=
  alookup_aupsert_ne zs n m _ h

/-! ## Zone-branch lemmas -/

theorem alookup_applyZoneAction_ne (zs : List (Nat × ZoneState)) (n m : Nat)
    (a : ZoneAction) (h : m ≠ n) :
    alookup (applyZoneAction zs n a) m = alookup zs m := by
  cases a <;> simp [applyZoneAction, alookup_zoneSet_ne _ _ _ _ h]

theorem alookup_applyZoneAction_self_isSome (zs : List (Nat × ZoneState)) (n : Nat)
    (a : ZoneAction) (hz : (alookup zs n).isSome = true) :
    (alookup (applyZoneAction zs n a) n).isSome = true := by
  cases a <;> simp [applyZoneAction, alookup_zoneSet_self, hz]

theorem alookup_zoneApply_self_isSome (zs : List (Nat × ZoneState)) (s : String)
    (n : Nat) : (alookup (zoneApply zs s n) n).isSome = true :=
  alookup_applyZoneAction_self_isSome _ _ _ (alookup_ensureZone_self_isSome zs n)

theorem alookup_zoneApply_ne (zs : List (Nat × ZoneState)) (s : String) (n m : Nat)
    (h : m ≠ n) : alookup (zoneApply zs s n) m = alookup zs m := by
  unfold zoneApply
  rw [alookup_applyZoneAction_ne _ _ _ _ h, alookup_ensureZone_ne _ _ _ h]

theorem alookup_ensureZone_self (zs : List (Nat × ZoneState)) (n : Nat) :
    alookup (ensureZone zs n) n = some ((alookup zs n).getD {}) := by
  unfold ensureZone
  cases h : alookup zs n with
  | some z => simp [h]
  | none => rw [alookup_append]; simp [h, alookup]

/-! ## Dispatch lemmas -/

theorem isPrefixOf_cons_elim {a : Char} {as l : List Char}
    (h : List.isPrefixOf (a :: as) l = true) :
    ∃ t, l = a :: t ∧ List.isPrefixOf as t = true := by
  cases l with
  | nil => simp [List.isPrefixOf] at h
  | cons b bs =>
    simp only [List.isPrefixOf, Bool.and_eq_true, beq_iff_eq] at h
    exact ⟨bs, by rw [h.1], h.2⟩

theorem updateCache_classified (c : StateCache) (s : String) :
    updateCache c s = applyClass c s (classifyLine s) := by
  unfold updateCache classifyLine
  split_ifs
  · rfl
  · rfl
  · rfl
  · rfl
  · cases hp : parseISN s with
    | none => rfl
    | some p => obtain ⟨n, name⟩ := p; rfl
  · cases hz : zonePrefix s with
    | none => rfl
    | some n => rfl
  · rfl

theorem zonePrefix_none_of_head {s : String} {c0 : Char} {rest : List Char}
    (hd : s.data = c0 :: rest) (hc : c0 ≠ 'Z') : zonePrefix s = none := by
  unfold zonePrefix
  rw [hd]
  simp [hc]

theorem zonePrefix_isSome_strStarts {s : String}
    (h : (zonePrefix s).isSome = true) : strStarts s ['Z'] = true := by
  unfold zonePrefix at h
  rcases hd : s.data with _ | ⟨c, rest⟩ <;> rw [hd] at h
  · simp at h
  · by_cases hc : c = 'Z'
    · simp [strStarts, hd, List.isPrefixOf, hc]
    · simp [hc] at h

theorem parseISN_data {s : String} {n : Nat} {name : String}
    (h : parseISN s = some (n, name)) :
    ∃ rest, s.data = 'I' :: 'S' :: 'N' :: rest := by
  unfold parseISN at h
  rcases hd : s.data with _ | ⟨c1, _ | ⟨c2, _ | ⟨c3, rest⟩⟩⟩ <;> rw [hd] at h
  · simp at h
  · simp at h
  · simp at h
  · by_cases hc : (c1 = 'I' && c2 = 'S' && c3 = 'N') = true
    · simp only [Bool.and_eq_true, decide_eq_true_eq] at hc
      obtain ⟨⟨e1, e2⟩, e3⟩ := hc
      subst e1
      subst e2
      subst e3
      exact ⟨rest, rfl⟩
    · rw [Bool.not_eq_true] at hc
      simp only [hc] at h
      simp at h

theorem updateCache_isn {c : StateCache} {s : String} {n : Nat} {name : String}
    (h : parseISN s = some (n, name)) : updateCache c s = applyISN c n name := by
  obtain ⟨rest, hd⟩ := parseISN_data h
  have h1 : strStarts s ['I', 'D', 'M'] = false := by
    simp [strStarts, hd, List.isPrefixOf]
  have h2 : strStarts s ['I', 'D', 'N'] = false := by
    simp [strStarts, hd, List.isPrefixOf]
  have h3 : strStarts s ['I', 'D', 'R'] = false := by
    simp [strStarts, hd, List.isPrefixOf]
  have h4 : strStarts s ['I', 'D', 'S'] = false := by
    simp [strStarts, hd, List.isPrefixOf]
  have h5 : strStarts s ['I', 'S', 'N'] = true := by
    simp [strStarts, hd, List.isPrefixOf]
  simp [updateCache, h1, h2, h3, h4, h5, h]

theorem zoneActionOf_setVolume {s : String} {w : Int}
    (h : zoneActionOf s = ZoneAction.setVolume w) : searchVOL s.data = some w := by
  unfold zoneActionOf at h
  split_ifs at h
  · cases hsv : searchVOL s.data <;> simp_all
  · cases hsi : searchINP s.data <;> simp_all
  · cases hq : searchQuoted 'S' 'I' 'P' s.data <;> simp_all
  · cases hq2 : searchQuoted 'A' 'I' 'C' s.data <;> simp_all

theorem zoneActionOf_noField_of_noKeyword {s : String}
    (hPOW : hasInfix s.data ['P', 'O', 'W'] = false)
    (hVOL : hasInfix s.data ['V', 'O', 'L'] = false)
    (hMUT : hasInfix s.data ['M', 'U', 'T'] = false)
    (hINP : hasInfix s.data ['I', 'N', 'P'] = false)
    (hSIP : hasInfix s.data ['S', 'I', 'P'] = false)
    (hAIC : hasInfix s.data ['A', 'I', 'C'] = false) :
    zoneActionOf s = ZoneAction.noField := by
  simp [zoneActionOf, hPOW, hVOL, hMUT, hINP, hSIP, hAIC]

/-! ## Key-provenance and volume-provenance lemmas -/

theorem keyPresent_empty (k : CacheKey) : keyPresent emptyCache k = false := by
  cases k <;> simp [keyPresent, emptyCache, alookup]

theorem keyPresent_updateCache (c : StateCache) (s : String) (k : CacheKey)
    (h : keyPresent (updateCache c s) k = true) :
    keyPresent c k = true ∨ keyPresent (updateCache emptyCache s) k = true := by
  rw [updateCache_classified] at h
  rw [updateCache_classified emptyCache s]
  cases hcl : classifyLine s with
  | idm => rw [hcl] at h; cases k <;> simp_all [applyClass, keyPresent]
  | idn => rw [hcl] at h; cases k <;> simp_all [applyClass, keyPresent]
  | idr => rw [hcl] at h; cases k <;> simp_all [applyClass, keyPresent]
  | ids => rw [hcl] at h; cases k <;> simp_all [applyClass, keyPresent]
  | isn n name => rw [hcl] at h; cases k <;> simp_all [applyClass, applyISN, keyPresent]
  | other => rw [hcl] at h; exact Or.inl h
  | zone n =>
    rw [hcl] at h
    cases k with
    | model => left; simpa [applyClass, keyPresent] using h
    | device_name => left; simpa [applyClass, keyPresent] using h
    | region => left; simpa [applyClass, keyPresent] using h
    | software_version => left; simpa [applyClass, keyPresent] using h
    | input_names => left; simpa [applyClass, keyPresent] using h
    | zone m =>
      by_cases hm : m = n
      · subst hm
        right
        simp [applyClass, keyPresent, alookup_zoneApply_self_isSome]
      · left
        simp only [applyClass, keyPresent] at h
        rwa [alookup_zoneApply_ne _ _ _ _ hm] at h

theorem keyPresent_stepOp (c : StateCache) (op : Op) (k : CacheKey)
    (h : keyPresent (stepOp c op) k = true) :
    keyPresent c k = true ∨ introduces op k = true := by
  cases op with
  | line s => exact keyPresent_updateCache c s k h
  | cmd t => exact Or.inl h
  | discoverInit =>
    by_cases hi : c.input_names.isSome = true
    · simp only [stepOp, hi, if_pos] at h
      exact Or.inl h
    · simp only [stepOp, hi, Bool.false_eq_true, if_false] at h
      cases k <;> simp_all [keyPresent, introduces]

theorem keyPresent_runOps (ops : List Op) : ∀ c k,
    keyPresent (runOps c ops) k = true →
    keyPresent c k = true ∨ ∃ op ∈ ops, introduces op k = true := by
  induction ops with
  | nil => intro c k h; exact Or.inl h
  | cons op rest ih =>
    intro c k h
    simp only [runOps, List.foldl] at h
    rcases ih (stepOp c op) k h with h1 | ⟨op2, hmem, hintro⟩
    · rcases keyPresent_stepOp c op k h1 with h2 | h2
      · exact Or.inl h2
      · exact Or.inr ⟨op, by simp, h2⟩
    · exact Or.inr ⟨op2, by simp [hmem], hintro⟩

theorem volume_of_applyZoneAction {zs : List (Nat × ZoneState)} {n m : Nat}
    {a : ZoneAction} {z : ZoneState} {v : Int}
    (h : alookup (applyZoneAction zs n a) m = some z) (hv : z.volume = some v) :
    (∃ z0, alookup zs m = some z0 ∧ z0.volume = some v) ∨
      ∃ w, a = ZoneAction.setVolume w ∧ v = w := by
  by_cases hm : m = n
  · subst hm
    cases a with
    | setVolume w =>
      rw [applyZoneAction, alookup_zoneSet_self] at h
      have hz := Option.some.inj h
      rw [← hz] at hv
      simp at hv
      exact Or.inr ⟨w, rfl, hv.symm⟩
    | setPower b =>
      rw [applyZoneAction, alookup_zoneSet_self] at h
      have hz := Option.some.inj h
      rw [← hz] at hv
      simp at hv
      cases hzs : alookup zs m with
      | some z0 => left; exact ⟨z0, rfl, by rw [hzs] at hv; simpa using hv⟩
      | none => rw [hzs] at hv; simp at hv
    | setMuted b =>
      rw [applyZoneAction, alookup_zoneSet_self] at h
      have hz := Option.some.inj h
      rw [← hz] at hv
      simp at hv
      cases hzs : alookup zs m with
      | some z0 => left; exact ⟨z0, rfl, by rw [hzs] at hv; simpa using hv⟩
      | none => rw [hzs] at hv; simp at hv
    | setInput i =>
      rw [applyZoneAction, alookup_zoneSet_self] at h
      have hz := Option.some.inj h
      rw [← hz] at hv
      simp at hv
      cases hzs : alookup zs m with
      | some z0 => left; exact ⟨z0, rfl, by rw [hzs] at hv; simpa using hv⟩
      | none => rw [hzs] at hv; simp at hv
    | setInputName nm =>
      rw [applyZoneAction, alookup_zoneSet_self] at h
      have hz := Option.some.inj h
      rw [← hz] at hv
      simp at hv
      cases hzs : alookup zs m with
      | some z0 => left; exact ⟨z0, rfl, by rw [hzs] at hv; simpa using hv⟩
      | none => rw [hzs] at hv; simp at hv
    | setAudioFormat t =>
      rw [applyZoneAction, alookup_zoneSet_self] at h
      have hz := Option.some.inj h
      rw [← hz] at hv
      simp at hv
      cases hzs : alookup zs m with
      | some z0 => left; exact ⟨z0, rfl, by rw [hzs] at hv; simpa using hv⟩
      | none => rw [hzs] at hv; simp at hv
    | noField => left; exact ⟨z, h, hv⟩
  · rw [alookup_applyZoneAction_ne _ _ _ _ hm] at h
    left
    exact ⟨z, h, hv⟩

theorem volume_of_zoneApply {zs : List (Nat × ZoneState)} {s : String} {n m : Nat}
    {z : ZoneState} {v : Int}
    (h : alookup (zoneApply zs s n) m = some z) (hv : z.volume = some v) :
    (∃ z0, alookup zs m = some z0 ∧ z0.volume = some v) ∨ searchVOL s.data = some v := by
  unfold zoneApply at h
  rcases volume_of_applyZoneAction h hv with ⟨z0, h0, hv0⟩ | ⟨w, ha, hw⟩
  · rcases alookup_ensureZone_cases _ _ _ _ h0 with h1 | h1
    · exact Or.inl ⟨z0, h1, hv0⟩
    · rw [h1] at hv0; simp at hv0
  · right
    rw [hw]
    exact zoneActionOf_setVolume ha

theorem volume_of_updateCache {c : StateCache} {s : String} {m : Nat}
    {z : ZoneState} {v : Int}
    (h : alookup (updateCache c s).zones m = some z) (hv : z.volume = some v) :
    (∃ z0, alookup c.zones m = some z0 ∧ z0.volume = some v) ∨
      searchVOL s.data = some v := by
  rw [updateCache_classified] at h
  cases hcl : classifyLine s with
  | idm => rw [hcl] at h; left; exact ⟨z, by simpa [applyClass] using h, hv⟩
  | idn => rw [hcl] at h; left; exact ⟨z, by simpa [applyClass] using h, hv⟩
  | idr => rw [hcl] at h; left; exact ⟨z, by simpa [applyClass] using h, hv⟩
  | ids => rw [hcl] at h; left; exact ⟨z, by simpa [applyClass] using h, hv⟩
  | isn n name =>
    rw [hcl] at h
    left
    exact ⟨z, by simpa [applyClass, applyISN] using h, hv⟩
  | other => rw [hcl] at h; left; exact ⟨z, h, hv⟩
  | zone n =>
    rw [hcl] at h
    simp only [applyClass] at h
    exact volume_of_zoneApply h hv

theorem volumesInRange_step {c : StateCache} {s : String}
    (hc : volumesInRange c)
    (hs : ∀ v, searchVOL s.data = some v → -90 ≤ v ∧ v ≤ 0) :
    volumesInRange (updateCache c s) := by
  intro n z hz v hv
  rcases volume_of_updateCache hz hv with ⟨z0, h0, hv0⟩ | hsv
  · exact hc n z0 h0 v hv0
  · exact hs v hsv

theorem volumesInRange_foldl (ls : List String) : ∀ c, volumesInRange c →
    (∀ s ∈ ls, ∀ v, searchVOL s.data = some v → -90 ≤ v ∧ v ≤ 0) →
    volumesInRange (List.foldl updateCache c ls) := by
  induction ls with
  | nil => intro c hc _; exact hc
  | cons s rest ih =>
    intro c hc hls
    simp only [List.foldl]
    exact ih _ (volumesInRange_step hc (hls s (by simp)))
      (fun s2 hs2 => hls s2 (by simp [hs2]))

theorem volumesInRange_empty : volumesInRange emptyCache := by
  intro n z hz
  simp [emptyCache, alookup] at hz

theorem strStarts_isn_false_of_zonePrefix {s : String} {n : Nat}
    (h : zonePrefix s = some n) : strStarts s ['I', 'S', 'N'] = false := by
  unfold zonePrefix at h
  rcases hd : s.data with _ | ⟨c0, rest⟩ <;> rw [hd] at h
  · simp at h
  · by_cases hc : c0 = 'Z'
    · subst hc
      simp [strStarts, hd, List.isPrefixOf]
    · simp [hc] at h

theorem clampVolume_mem (v : Int) : -90 ≤ clampVolume v ∧ clampVolume v ≤ 0 := by
  unfold clampVolume
  exact ⟨le_max_left _ _, max_le (by norm_num) (min_le_left 0 v)⟩

theorem clampVolume_idem (v : Int) : clampVolume (clampVolume v) = clampVolume v := by
  have h := clampVolume_mem v
  conv_lhs => rw [clampVolume]
  rw [min_eq_right h.2, max_eq_right h.1]

/-! ## Claim theorems -/

/-- C1: the claim says that for every valid line `Z<n>POW<d>` with d in
{0, 1} the cached power for zone n equals `d = 1`. The code instead computes
the boolean as a containment test for the character 1 anywhere in the line,
so the line `Z1POW0` (power-off notification for zone 1) stores `true`
because the zone numeral itself contains the digit 1, while the digit after
POW is 0; for a zone numeral without the digit 1, such as `Z2POW0`, the
stored value does match the digit. -/
theorem c1_pow_zone1_off_stores_true :
    alookup (updateCache emptyCache "Z1POW0").zones 1 =
      some { power := some true } ∧
    alookup (updateCache emptyCache "Z2POW0").zones 2 =
      some { power := some false } := by decide

/-- C2 counterexample: the line `Z2XYZ` matches none of the recognized
patterns (no identity prefix, not an ISN name response, a Z-line carrying
none of the six keywords), yet processing it mutates the cache by inserting
an empty record for zone 2. -/
theorem c2_counterexample :
    recognizedLine "Z2XYZ" = false ∧
    updateCache emptyCache "Z2XYZ" ≠ emptyCache := by decide

/-- C2 (amended): a trimmed line matching none of the recognized patterns
leaves the cache unchanged, except that a line starting with `Z<digits>`
(and carrying none of the six zone keywords) still inserts an empty record
for that zone when absent; nothing else changes. -/
theorem c2_unrecognized_line_effect (c : StateCache) (s : String)
    (h : recognizedLine s = false) :
    updateCache c s =
      match zonePrefix s with
      | some n => { c with zones := ensureZone c.zones n }
      | none => c := by
  simp only [recognizedLine, Bool.or_eq_false_iff] at h
  obtain ⟨⟨⟨⟨⟨hIDM, hIDN⟩, hIDR⟩, hIDS⟩, hISN⟩, hZ⟩ := h
  have hpn : parseISN s = none := by
    cases hp : parseISN s with
    | none => rfl
    | some p => rw [hp] at hISN; simp at hISN
  cases hz : zonePrefix s with
  | none =>
    simp only [updateCache, hIDM, hIDN, hIDR, hIDS, hpn, hz, Bool.false_eq_true,
      if_false]
    cases hsn : strStarts s ['I', 'S', 'N'] <;>
      cases hzs : strStarts s ['Z'] <;> simp
  | some n =>
    have hzs : strStarts s ['Z'] = true := by
      apply zonePrefix_isSome_strStarts
      rw [hz]
      rfl
    have hisn : strStarts s ['I', 'S', 'N'] = false :=
      strStarts_isn_false_of_zonePrefix hz
    have hZ2 := hZ
    rw [hz] at hZ2
    simp only [Option.isSome_some, Bool.true_and, Bool.or_eq_false_iff] at hZ2
    obtain ⟨⟨⟨⟨⟨p1, p2⟩, p3⟩, p4⟩, p5⟩, p6⟩ := hZ2
    have hnf := zoneActionOf_noField_of_noKeyword p1 p2 p3 p4 p5 p6
    simp only [updateCache, hIDM, hIDN, hIDR, hIDS, hisn, hzs, hz,
      Bool.false_eq_true, if_false, if_true]
    simp [zoneApply, hnf, applyZoneAction]

/-- C2 witness: a fully unrecognized line, evaluated concretely. -/
theorem c2_witness :
    recognizedLine "HELLO" = false ∧
    updateCache emptyCache "HELLO" = emptyCache := by
  refine ⟨by decide, ?_⟩
  have h := c2_unrecognized_line_effect emptyCache "HELLO" (by decide)
  rw [show zonePrefix "HELLO" = none from by decide] at h
  exact h

/-- C3 counterexample: with a registered callback, processing the fully
unmatched line `XYZZY` leaves the cache unchanged and still invokes the
observer with the raw line, so the observer is not gated on a cache
mutation. -/
theorem c3_counterexample :
    (processResponse emptyCache true [] "XYZZY").1 = emptyCache ∧
    (processResponse emptyCache true [] "XYZZY").2 = ["XYZZY"] := by decide

/-- C3 (amended): `_process_response` invokes the registered observer with
the original raw line for every processed line, whether or not the line
matched any pattern or mutated the cache; with no observer registered,
nothing is invoked. -/
theorem c3_observer_on_every_line (c : StateCache) (log : List String)
    (s : String) :
    processResponse c true log s = (updateCache c s, log ++ [s]) ∧
    processResponse c false log s = (updateCache c s, log) := by
  exact ⟨rfl, rfl⟩

/-- C4 counterexample: with attempt 1 raising OSError errno 1 (not in the
transient set, and not a timeout) and everything after it succeeding,
`connect(max_retries = 5)` returns failure after exactly one attempt instead
of sleeping and retrying, refuting the claim that every such exception is
treated as transient for the remaining budget. -/
theorem c4_counterexample :
    connectRun (fun k => if k = 1 then AttemptResult.oserr 1
      else AttemptResult.success) 5 = (false, 1) ∧
    transientErrno 1 = false ∧
    (fun k => if k = 1 then AttemptResult.oserr 1
      else AttemptResult.success) 2 = AttemptResult.success := by decide

/-- C4 (amended): a non-OSError exception other than a timeout is treated as
transient (retry while budget remains, failure once exhausted), but an
OSError whose errno is outside the transient set {113, 111, 10061} makes
`connect` return failure immediately without consuming the remaining retry
budget. -/
theorem c4_exception_policy (f : Nat → AttemptResult) (a r : Nat) :
    (f a = AttemptResult.otherExc →
      connectGo f a (r + 1) =
        if 0 < r then
          ((connectGo f (a + 1) r).1, (connectGo f (a + 1) r).2 + 1)
        else (false, 1)) ∧
    (∀ e, transientErrno e = false → f a = AttemptResult.oserr e →
      connectGo f a (r + 1) = (false, 1)) := by
  constructor
  · intro h
    simp [connectGo, h]
  · intro e he h
    simp [connectGo, h, he]

/-- C4 witness: the amended policy evaluated at concrete attempt outcomes. -/
theorem c4_witness :
    connectGo (fun _ => AttemptResult.otherExc) 1 2 =
      ((connectGo (fun _ => AttemptResult.otherExc) 2 1).1,
        (connectGo (fun _ => AttemptResult.otherExc) 2 1).2 + 1) ∧
    connectGo (fun _ => AttemptResult.oserr 5) 1 1 = (false, 1) := by
  constructor
  · have h := (c4_exception_policy (fun _ => AttemptResult.otherExc) 1 1).1 rfl
    simpa using h
  · exact (c4_exception_policy (fun _ => AttemptResult.oserr 5) 1 0).2 5
      (by decide) rfl

/-- C5 counterexample: the discovery handshake's initialization step mutates
the state cache (it makes the `input_names` key present, bound to an empty
mapping) although no notification line has been observed and the parser
never ran. -/
theorem c5_counterexample :
    runOps emptyCache [Op.discoverInit] ≠ emptyCache ∧
    keyPresent (runOps emptyCache [Op.discoverInit]) CacheKey.input_names
      = true := by decide

/-- C5 (amended): command issuance never mutates the cache, and after any
sequence of operations from the empty cache, every present key was
introduced either by a processed notification line that creates that key or
by the discovery initialization, which can only introduce `input_names`. -/
theorem c5_cache_provenance :
    (∀ (c : StateCache) (t : String), stepOp c (Op.cmd t) = c) ∧
    (∀ (ops : List Op) (k : CacheKey),
      keyPresent (runOps emptyCache ops) k = true →
      ∃ op ∈ ops, introduces op k = true) := by
  constructor
  · intro c t
    rfl
  · intro ops k h
    rcases keyPresent_runOps ops emptyCache k h with h1 | h2
    · rw [keyPresent_empty] at h1
      simp at h1
    · exact h2

/-- C5 witness: a command leaves the empty cache unchanged, and the `model`
key present after processing an IDM line is introduced by that line. -/
theorem c5_witness :
    stepOp emptyCache (Op.cmd "Z1POW1") = emptyCache ∧
    ∃ op ∈ [Op.line "IDMAVM 70"], introduces op CacheKey.model = true := by
  exact ⟨c5_cache_provenance.1 emptyCache "Z1POW1",
    c5_cache_provenance.2 [Op.line "IDMAVM 70"] CacheKey.model (by decide)⟩

/-- C6 counterexample: the line `ISN3"   "` carries the non-empty name
consisting of three spaces; the claim then demands the entry to be that name
with surrounding whitespace trimmed (the empty string), but the code stores
the fallback `Input 3`. -/
theorem c6_counterexample :
    ("   " : String) ≠ "" ∧
    alookup ((updateCache emptyCache "ISN3\"   \"").input_names.getD []) 3 =
      some "Input 3" ∧
    ("Input 3" : String) ≠ pyStrip "   " := by decide

/-- C6 (amended): for every parsed `ISN<n>"<name>"` line, the entry stored
for index n is the name with surrounding whitespace stripped when that strip
result is non-empty, and the fallback `Input <n>` when the name is empty or
consists only of whitespace. -/
theorem c6_isn_name_stored (c : StateCache) (s : String) (n : Nat)
    (name : String) (h : parseISN s = some (n, name)) :
    alookup ((updateCache c s).input_names.getD []) n =
      some (if pyStrip name = "" then "Input " ++ toString n
        else pyStrip name) := by
  rw [updateCache_isn h]
  simp only [applyISN, Option.getD_some]
  rw [alookup_aupsert_self]

/-- C6 witness: a concrete discovered name is stored verbatim. -/
theorem c6_witness :
    alookup ((updateCache emptyCache "ISN2\"Blu-ray\"").input_names.getD []) 2 =
      some "Blu-ray" := by
  have h := c6_isn_name_stored emptyCache "ISN2\"Blu-ray\"" 2 "Blu-ray"
    (by decide)
  rw [h]
  decide

/-- C7 counterexample: the parser stores inbound volumes unchecked, so the
notification `Z2VOL7` leaves a stored volume of 7, outside the dB range
[-90, 0]. -/
theorem c7_counterexample :
    alookup (runLines emptyCache ["Z2VOL7"]).zones 2 =
      some { volume := some 7 } ∧
    ¬ ((7 : Int) ≤ 0) := by decide

/-- C7 (amended): the stored volume is exactly the integer the parser
extracts from the line, with no clamping; hence the range invariant holds
precisely when every processed line's extracted volume payload lies in
[-90, 0]. -/
theorem c7_volume_invariant (ls : List String)
    (h : ∀ s ∈ ls, ∀ v, searchVOL s.data = some v → -90 ≤ v ∧ v ≤ 0) :
    volumesInRange (runLines emptyCache ls) :=
  volumesInRange_foldl ls emptyCache volumesInRange_empty h

/-- C7 witness: the invariant after a concrete in-range volume notification. -/
theorem c7_witness : volumesInRange (runLines emptyCache ["Z2VOL-45"]) := by
  apply c7_volume_invariant
  intro s hs v hv
  simp only [List.mem_singleton] at hs
  subst hs
  rw [show searchVOL ("Z2VOL-45" : String).data = some (-45) from by decide] at hv
  injection hv with he
  rw [← he]
  decide

/-- C8: `set_volume` clamps its integer argument to [-90, 0] before encoding
the command string, so 5 encodes as 0 and -200 encodes as -90. -/
theorem c8_set_volume_clamps :
    (∀ (z : Nat) (v : Int),
      setVolumeCmd z v = setVolumeCmd z (clampVolume v) ∧
      -90 ≤ clampVolume v ∧ clampVolume v ≤ 0) ∧
    (∀ z : Nat, setVolumeCmd z 5 = setVolumeCmd z 0) ∧
    (∀ z : Nat, setVolumeCmd z (-200) = setVolumeCmd z (-90)) := by
  refine ⟨fun z v => ⟨?_, (clampVolume_mem v).1, (clampVolume_mem v).2⟩,
    fun z => ?_, fun z => ?_⟩
  · unfold setVolumeCmd
    rw [clampVolume_idem]
  · unfold setVolumeCmd
    rw [show clampVolume 5 = clampVolume 0 from by decide]
  · unfold setVolumeCmd
    rw [show clampVolume (-200) = clampVolume (-90) from by decide]

/-- C9: `disconnect` is idempotent: after any call the state is disconnected,
a second call changes nothing, and a call made while already disconnected is
a no-op. -/
theorem c9_disconnect_idempotent (st : ConnState) :
    (disconnect st).connected = false ∧
    disconnect (disconnect st) = disconnect st ∧
    (st.connected = false → disconnect st = st) := by
  by_cases h : st.connected = false
  · have h1 : disconnect st = st := by rw [disconnect, if_pos h]
    refine ⟨?_, ?_, fun _ => h1⟩
    · rw [h1]
      exact h
    · rw [h1]
      exact h1
  · have h1 : disconnect st = disconnectedState := by rw [disconnect, if_neg h]
    rw [h1]
    refine ⟨rfl, ?_, fun hc => absurd hc h⟩
    rw [disconnect]
    simp [disconnectedState]

/-- C9 witness: the theorem applied to the fully disconnected state, with
its hypothesis discharged. -/
theorem c9_witness :
    (disconnect disconnectedState).connected = false ∧
    disconnect (disconnect disconnectedState) = disconnect disconnectedState ∧
    disconnect disconnectedState = disconnectedState := by
  have h := c9_disconnect_idempotent disconnectedState
  exact ⟨h.1, h.2.1, h.2.2 rfl⟩

/-- C10: for an input index with no discovered name, `get_input_name`
returns the fallback `Input <n>`; in particular this holds on the empty
cache of a client that has never connected. -/
theorem c10_input_name_fallback (c : StateCache) (n : Nat)
    (h : alookup (getInputNames c) n = none) :
    getInputName c n = "Input " ++ toString n := by
  unfold getInputName
  rw [h]
  rfl

/-- C10 witness: the fallback on the pre-connection empty cache. -/
theorem c10_witness :
    alookup (getInputNames emptyCache) 7 = none ∧
    getInputName emptyCache 7 = "Input 7" := by
  refine ⟨by decide, ?_⟩
  have h := c10_input_name_fallback emptyCache 7 (by decide)
  rw [h]
  decide

end AnthemAV
